import Mathlib

/-!
Shallow embedding of the ESP RSA accelerator driver
(`esp-hal-common/src/rsa/mod.rs`).

The peripheral's memory-mapped interface is modelled as an explicit state
record holding the four operand/result memory regions (`x_mem`, `y_mem`,
`m_mem`, `z_mem`), the 32-bit `m_prime` register, the completion ("idle")
latch and the start-trigger bit.  Bytes are modelled as natural numbers:
none of the driver's copy operations depends on the value range of `u8`.

The staging primitives (`write_operand_a`, `write_operand_b`,
`write_modulus`, `write_mprime`, `write_r`, `read_out`) are translated
directly from the source: each is a `copy_nonoverlapping` of exactly the
buffer's length into (or out of) the corresponding region, i.e. a prefix
overwrite of a fixed-capacity region.

The per-target backend primitives (`is_idle`, `clear_interrupt`,
`set_start`) live in chip-specific files (`esp32sX.rs` / `esp32cX.rs` /
`esp32.rs`) that are not part of the common source; they are modelled from
the spec's backend capability interface (`query_idle`,
`acknowledge_completion`, `trigger_start`).
-/

/-- Bytes are modelled as natural numbers; the driver only moves them. -/
abbrev Byte := Nat

/-- Model of `core::ptr::copy_nonoverlapping(src, dst, src.len())` into a
fixed-capacity memory region: the first `src.length` bytes of `dst` are
overwritten by `src`, the rest of the region is untouched. -/
def copyIn (src dst : List Byte) : List Byte :=
  src ++ dst.drop src.length

/-- Model of the Rust `Infallible` type: an empty type. -/
inductive Infallible : Type

/-- Model of `nb::Error<E>`: either `WouldBlock` or a wrapped error `E`. -/
inductive NbError (E : Type) : Type where
  | wouldBlock : NbError E
  | other : E → NbError E
deriving DecidableEq

/-- Model of `nb::Result<(), E> = Result<(), nb::Error<E>>`. -/
abbrev NbResult (E : Type) := Except (NbError E) Unit

/-- State of the RSA peripheral: the four memory-mapped regions, the
`m_prime` register, the hardware completion latch and the start bit. -/
structure Rsa where
  x_mem : List Byte
  y_mem : List Byte
  m_mem : List Byte
  z_mem : List Byte
  m_prime : Nat
  idle : Bool
  start : Bool
deriving DecidableEq

/-- `Rsa::write_operand_b`: copies the buffer byte-for-byte into `y_mem`. -/
def Rsa.write_operand_b (s : Rsa) (operand_b : List Byte) : Rsa :=
  { s with y_mem := copyIn operand_b s.y_mem }

/-- `Rsa::write_modulus`: copies the buffer byte-for-byte into `m_mem`. -/
def Rsa.write_modulus (s : Rsa) (modulus : List Byte) : Rsa :=
  { s with m_mem := copyIn modulus s.m_mem }

/-- `Rsa::write_mprime`: writes a single 32-bit word to the `m_prime`
register. -/
def Rsa.write_mprime (s : Rsa) (m_prime : Nat) : Rsa :=
  { s with m_prime := m_prime % 2 ^ 32 }

/-- `Rsa::write_operand_a`: copies the buffer byte-for-byte into `x_mem`. -/
def Rsa.write_operand_a (s : Rsa) (operand_a : List Byte) : Rsa :=
  { s with x_mem := copyIn operand_a s.x_mem }

/-- `Rsa::write_r`: copies the buffer byte-for-byte into `z_mem` (the same
region the hardware writes results to). -/
def Rsa.write_r (s : Rsa) (r : List Byte) : Rsa :=
  { s with z_mem := copyIn r s.z_mem }

/-- `Rsa::read_out`: copies the first `n` bytes of `z_mem` into the
caller's `n`-byte output buffer (which is fully overwritten). -/
def Rsa.read_out (s : Rsa) (n : Nat) : List Byte :=
  s.z_mem.take n

/-- Modelled from the spec: the per-target backend's `query_idle` primitive
(`is_idle` in the chip-specific files not present in the common source) is
a non-destructive read of the completion latch. -/
def Rsa.is_idle (s : Rsa) : Bool :=
  s.idle

/-- Modelled from the spec: the per-target backend's `acknowledge_completion`
primitive (`clear_interrupt` in the chip-specific files) clears the
completion latch so the peripheral can be reused; it touches nothing else. -/
def Rsa.clear_interrupt (s : Rsa) : Rsa :=
  { s with idle := false }

/-- Modelled from the spec: the per-target backend's `trigger_start`
primitive (`set_start` in the chip-specific files) asserts the hardware
start bit; it touches nothing else. -/
def Rsa.set_start (s : Rsa) : Rsa :=
  { s with start := true }

/-- `RsaMode::InputType = [u8; N / 8]` as generated by `implement_op` for a
bit-width `N`: the byte length of an input operand. -/
def InputType_len (x : Nat) : Nat :=
  x / 8

/-- `Multi::OutputType = [u8; N * 2 / 8]` as generated by `implement_op`
for a multiply-capable bit-width `N`: the byte length of the large
multiplication output. -/
def OutputType_len (x : Nat) : Nat :=
  x * 2 / 8

/-- `RsaModularExponentiation::start_exponentiation`: writes `base` into
operand region A, writes `r` into the R region, then asserts the start
trigger.  Fire-and-forget: the only result is the new peripheral state. -/
def RsaModularExponentiation.start_exponentiation (s : Rsa) (base r : List Byte) : Rsa :=
  ((s.write_operand_a base).write_r r).set_start

/-- `RsaModularExponentiation::read_results`: non-blocking poll.  Yields
the `nb` result, the new peripheral state, and the caller's output buffer
after the call. -/
def RsaModularExponentiation.read_results (s : Rsa) (outbuf : List Byte) :
    NbResult Infallible × Rsa × List Byte :=
  if !s.is_idle then
    (Except.error NbError.wouldBlock, s, outbuf)
  else
    (Except.ok (), s.clear_interrupt, s.read_out outbuf.length)

/-- `RsaModularMultiplication::read_results`: non-blocking poll with the
same body as the exponentiation session's. -/
def RsaModularMultiplication.read_results (s : Rsa) (outbuf : List Byte) :
    NbResult Infallible × Rsa × List Byte :=
  if !s.is_idle then
    (Except.error NbError.wouldBlock, s, outbuf)
  else
    (Except.ok (), s.clear_interrupt, s.read_out outbuf.length)

/-- `RsaMultiplication::read_results` (large multiplication session): the
output buffer has the doubled `OutputType` length, but the body is the
same non-blocking poll. -/
def RsaMultiplication.read_results (s : Rsa) (outbuf : List Byte) :
    NbResult Infallible × Rsa × List Byte :=
  if !s.is_idle then
    (Except.error NbError.wouldBlock, s, outbuf)
  else
    (Except.ok (), s.clear_interrupt, s.read_out outbuf.length)

/-- A concrete peripheral state whose completion latch is low (hardware
still computing), used by witnesses. -/
def sampleBusy : Rsa :=
  { x_mem := [1, 2], y_mem := [3, 4], m_mem := [5, 6], z_mem := [7, 8],
    m_prime := 9, idle := false, start := true }

/-- A concrete peripheral state whose completion latch is high (result
ready in `z_mem`), used by witnesses. -/
def sampleDone : Rsa :=
  { x_mem := [1, 2], y_mem := [3, 4], m_mem := [5, 6], z_mem := [7, 8],
    m_prime := 9, idle := true, start := true }

/-- C1: in any peripheral state whose idle latch is low, `read_results` of
every session kind returns `WouldBlock` and leaves the output buffer and
the whole peripheral state (all memory regions and the completion latch)
unchanged; a repeated call in this state yields the same outcome. -/
theorem read_results_pending (s : Rsa) (bufE bufM bufL : List Byte)
    (h : s.is_idle = false) :
    RsaModularExponentiation.read_results s bufE =
      (Except.error NbError.wouldBlock, s, bufE) ∧
    RsaModularMultiplication.read_results s bufM =
      (Except.error NbError.wouldBlock, s, bufM) ∧
    RsaMultiplication.read_results s bufL =
      (Except.error NbError.wouldBlock, s, bufL) ∧
    RsaModularExponentiation.read_results
        (RsaModularExponentiation.read_results s bufE).2.1
        (RsaModularExponentiation.read_results s bufE).2.2 =
      (Except.error NbError.wouldBlock, s, bufE) := by
  have h1 : RsaModularExponentiation.read_results s bufE =
      (Except.error NbError.wouldBlock, s, bufE) := by
    simp [RsaModularExponentiation.read_results, h]
  refine ⟨h1, ?_, ?_, ?_⟩
  · simp [RsaModularMultiplication.read_results, h]
  · simp [RsaMultiplication.read_results, h]
  · rw [h1]
    exact h1

/-- Witness for C1 at a concrete busy state. -/
theorem read_results_pending_witness :
    RsaModularExponentiation.read_results sampleBusy [0] =
      (Except.error NbError.wouldBlock, sampleBusy, [0]) ∧
    RsaModularMultiplication.read_results sampleBusy [0] =
      (Except.error NbError.wouldBlock, sampleBusy, [0]) ∧
    RsaMultiplication.read_results sampleBusy [0] =
      (Except.error NbError.wouldBlock, sampleBusy, [0]) ∧
    RsaModularExponentiation.read_results
        (RsaModularExponentiation.read_results sampleBusy [0]).2.1
        (RsaModularExponentiation.read_results sampleBusy [0]).2.2 =
      (Except.error NbError.wouldBlock, sampleBusy, [0]) :=
  read_results_pending sampleBusy [0] [0] [0] rfl

/-- C2: in any peripheral state whose idle latch is high, `read_results`
copies exactly `outbuf.length` bytes of the result region `z_mem` into the
caller's buffer, the final state is the input state with only the
completion latch cleared (clearing applied exactly once, and independent
of the read, which sees the un-cleared state), and the result is success. -/
theorem read_results_complete (s : Rsa) (outbuf : List Byte)
    (hidle : s.is_idle = true) (hlen : outbuf.length ≤ s.z_mem.length) :
    RsaModularExponentiation.read_results s outbuf =
      (Except.ok (), s.clear_interrupt, s.read_out outbuf.length) ∧
    s.clear_interrupt = { s with idle := false } ∧
    s.read_out outbuf.length = s.z_mem.take outbuf.length ∧
    (s.read_out outbuf.length).length = outbuf.length := by
  refine ⟨?_, rfl, rfl, ?_⟩
  · simp [RsaModularExponentiation.read_results, hidle]
  · simp [Rsa.read_out, List.length_take, hlen]

/-- Witness for C2 at a concrete completed state. -/
theorem read_results_complete_witness :
    RsaModularExponentiation.read_results sampleDone [0, 0] =
      (Except.ok (), sampleDone.clear_interrupt,
        sampleDone.read_out (List.length [0, 0])) ∧
    sampleDone.clear_interrupt = { sampleDone with idle := false } ∧
    sampleDone.read_out (List.length [0, 0]) =
      sampleDone.z_mem.take (List.length [0, 0]) ∧
    (sampleDone.read_out (List.length [0, 0])).length = List.length [0, 0] :=
  read_results_complete sampleDone [0, 0] rfl (by decide)

/-- C3: for every bit-width that is a whole number of bytes (the spec's
structural constraint on supported widths), the `implement_op` macro's
associated input type has exactly `N / 8` bytes and the multiply-capable
output type has exactly twice that many bytes. -/
theorem op_sizes (x : Nat) (h : 8 ∣ x) :
    InputType_len x = x / 8 ∧
    InputType_len x * 8 = x ∧
    OutputType_len x = 2 * InputType_len x := by
  obtain ⟨k, rfl⟩ := h
  unfold InputType_len OutputType_len
  omega

/-- Witness for C3 at the concrete width 512. -/
theorem op_sizes_witness :
    InputType_len 512 = 512 / 8 ∧
    InputType_len 512 * 8 = 512 ∧
    OutputType_len 512 = 2 * InputType_len 512 :=
  op_sizes 512 (by decide)

/-- C4: `start_exponentiation` is exactly the composition write-A, then
write-R, then start-trigger; in the resulting state both operand regions
hold the staged values, the start bit is asserted, and everything else
(operand-B region, modulus region, `m_prime`, idle latch) is unchanged.
The state handed to the start trigger already contains both writes. -/
theorem start_exponentiation_spec (s : Rsa) (base r : List Byte) :
    RsaModularExponentiation.start_exponentiation s base r =
      Rsa.set_start (Rsa.write_r (Rsa.write_operand_a s base) r) ∧
    (RsaModularExponentiation.start_exponentiation s base r).x_mem.take base.length = base ∧
    (RsaModularExponentiation.start_exponentiation s base r).z_mem.take r.length = r ∧
    (RsaModularExponentiation.start_exponentiation s base r).start = true ∧
    (RsaModularExponentiation.start_exponentiation s base r).y_mem = s.y_mem ∧
    (RsaModularExponentiation.start_exponentiation s base r).m_mem = s.m_mem ∧
    (RsaModularExponentiation.start_exponentiation s base r).m_prime = s.m_prime ∧
    (RsaModularExponentiation.start_exponentiation s base r).idle = s.idle := by
  refine ⟨rfl, ?_, ?_, rfl, rfl, rfl, rfl, rfl⟩ <;>
    simp [RsaModularExponentiation.start_exponentiation, Rsa.write_operand_a,
      Rsa.write_r, Rsa.set_start, copyIn, List.take_left]

/-- C5: for every peripheral state and output buffer, the only possible
results of the three `read_results` functions are `WouldBlock` and
success; the fatal-error payload type `Infallible` is uninhabited, so the
`other` error variant can never be produced. -/
theorem read_results_infallible (s : Rsa) (b1 b2 b3 : List Byte) :
    ((RsaModularExponentiation.read_results s b1).1 =
        Except.error NbError.wouldBlock ∨
      (RsaModularExponentiation.read_results s b1).1 = Except.ok ()) ∧
    ((RsaModularMultiplication.read_results s b2).1 =
        Except.error NbError.wouldBlock ∨
      (RsaModularMultiplication.read_results s b2).1 = Except.ok ()) ∧
    ((RsaMultiplication.read_results s b3).1 =
        Except.error NbError.wouldBlock ∨
      (RsaMultiplication.read_results s b3).1 = Except.ok ()) ∧
    (∀ e : Infallible,
      (RsaModularExponentiation.read_results s b1).1 ≠
        Except.error (NbError.other e)) := by
  refine ⟨?_, ?_, ?_, fun e => nomatch e⟩
  · cases hi : s.is_idle <;> simp [RsaModularExponentiation.read_results, hi]
  · cases hi : s.is_idle <;> simp [RsaModularMultiplication.read_results, hi]
  · cases hi : s.is_idle <;> simp [RsaMultiplication.read_results, hi]

/-- C6: the modular-multiplication session's `read_results` is
extensionally equal to the modular-exponentiation session's: same result,
same buffer contents, same final peripheral state, on every input. -/
theorem modular_mul_read_eq_exp_read (s : Rsa) (outbuf : List Byte) :
    RsaModularMultiplication.read_results s outbuf =
      RsaModularExponentiation.read_results s outbuf :=
  rfl

/-- C8: each staging primitive copies its whole buffer byte-for-byte, in
order, into its accelerator region: the first `length` bytes of the
destination region afterwards are exactly the caller's bytes.  The
functions are total on every buffer: no length check, no error path. -/
theorem write_primitives_copy (s : Rsa) (a b m r : List Byte) :
    (s.write_operand_a a).x_mem.take a.length = a ∧
    (s.write_operand_b b).y_mem.take b.length = b ∧
    (s.write_modulus m).m_mem.take m.length = m ∧
    (s.write_r r).z_mem.take r.length = r := by
  refine ⟨?_, ?_, ?_, ?_⟩ <;>
    simp [Rsa.write_operand_a, Rsa.write_operand_b, Rsa.write_modulus,
      Rsa.write_r, copyIn, List.take_left]

/-- C9: `write_r` and `read_out` address the same memory region `z_mem`:
staging `r` and immediately reading out `r.length` bytes returns exactly
`r`, for every prior content of the result region (so staging overwrites
any previous result). -/
theorem write_r_read_out_roundtrip (s : Rsa) (r : List Byte) :
    (s.write_r r).read_out r.length = r ∧
    (s.write_r r).z_mem = copyIn r s.z_mem := by
  refine ⟨?_, rfl⟩
  simp [Rsa.write_r, Rsa.read_out, copyIn, List.take_left]

/-- C10: frame conditions of the staging primitives: `write_operand_a`
changes only `x_mem`, `write_operand_b` only `y_mem`, `write_modulus`
only `m_mem`, `write_mprime` only the `m_prime` register; each leaves
every other region, the `m_prime` register, the idle latch and the start
bit unchanged. -/
theorem staging_frame (s : Rsa) (a b m : List Byte) (w : Nat) :
    (s.write_operand_a a).y_mem = s.y_mem ∧
    (s.write_operand_a a).m_mem = s.m_mem ∧
    (s.write_operand_a a).z_mem = s.z_mem ∧
    (s.write_operand_a a).m_prime = s.m_prime ∧
    (s.write_operand_a a).idle = s.idle ∧
    (s.write_operand_a a).start = s.start ∧
    (s.write_operand_b b).x_mem = s.x_mem ∧
    (s.write_operand_b b).m_mem = s.m_mem ∧
    (s.write_operand_b b).z_mem = s.z_mem ∧
    (s.write_operand_b b).m_prime = s.m_prime ∧
    (s.write_operand_b b).idle = s.idle ∧
    (s.write_operand_b b).start = s.start ∧
    (s.write_modulus m).x_mem = s.x_mem ∧
    (s.write_modulus m).y_mem = s.y_mem ∧
    (s.write_modulus m).z_mem = s.z_mem ∧
    (s.write_modulus m).m_prime = s.m_prime ∧
    (s.write_modulus m).idle = s.idle ∧
    (s.write_modulus m).start = s.start ∧
    (s.write_mprime w).x_mem = s.x_mem ∧
    (s.write_mprime w).y_mem = s.y_mem ∧
    (s.write_mprime w).m_mem = s.m_mem ∧
    (s.write_mprime w).z_mem = s.z_mem ∧
    (s.write_mprime w).idle = s.idle ∧
    (s.write_mprime w).start = s.start :=
  ⟨rfl, rfl, rfl, rfl, rfl, rfl, rfl, rfl, rfl, rfl, rfl, rfl,
   rfl, rfl, rfl, rfl, rfl, rfl, rfl, rfl, rfl, rfl, rfl, rfl⟩
